import Mathlib

/-!
Shallow embedding of the Simple-Contracts contract-management application
(`contracts` Django app): the data model (`models.py`), the permission
predicates (`permissions.py`), the service operations (`services.py`), the
approval-decision form and view (`forms.py`, `views.py`), and the
contract-creation wizard commit path (`views.py`).

Users, contracts and child rows are modelled as plain structures; database
tables as lists of rows; machine-level concerns (timestamps, file blobs) as
opaque scalar parameters.  Strings keep the exact constants used by the
source ("LEGAL_ADMIN", "DRAFT", "PENDING", ...).
-/

namespace Contracts

/-- A Django auth user, with the attributes `permissions.py` consults.
`role = none` models a user object without a `role` attribute
(`hasattr(user, 'role')` false); `department = none` models a user with no
(or a falsy) `department` attribute. -/
structure User where
  uid : Nat
  is_authenticated : Bool
  is_superuser : Bool
  role : Option String
  groups : List String
  is_staff : Bool
  department : Option Nat
deriving Repr, DecidableEq

/-- The fields of `Contract` (models.py) that the verified operations read.
`cid` is `str(self.id)` (the UUID rendered as a lowercase-hex string);
foreign keys are user / department primary keys. -/
structure Contract where
  cid : String
  contract_number : String
  title : String
  status : String
  category : String
  owner : Option Nat
  created_by : Option Nat
  bu_team : Option Nat
  is_confidential : Bool
  effective_date : Option String
deriving Repr, DecidableEq

/-- A `ContractShare` row (models.py): exactly the fields the permission
checks filter on. -/
structure ContractShare where
  contract : String
  shared_with_user : Option Nat
  shared_with_department : Option Nat
  access_level : String
deriving Repr, DecidableEq

/-- An `AdditionalApproval` row (models.py). `decided_at` is an abstract
timestamp, `none` while undecided. -/
structure AdditionalApproval where
  aid : Nat
  contract : String
  requested_by : Nat
  approver : Nat
  status : String
  reason : String
  decided_at : Option Nat
  decision_comment : String
deriving Repr, DecidableEq

/-- The slice of the database the permission predicates query
(`ContractShare.objects` and `contract.approvals`). -/
structure Db where
  shares : List ContractShare
  approvals : List AdditionalApproval
deriving Repr

/-- Model of `get_user_role` (permissions.py): superuser flag, then an
explicit `role` attribute, then group membership, then the staff flag,
then the default minimal role. Returns `none` for a missing or
unauthenticated user. -/
def get_user_role (user : Option User) : Option String :=
  match user with
  | none => none
  | some u =>
    if !u.is_authenticated then none
    else if u.is_superuser then some "LEGAL_ADMIN"
    else match u.role with
    | some r => some r
    | none =>
      if u.groups.contains "Legal Admin" || u.groups.contains "legal_admin" then
        some "LEGAL_ADMIN"
      else if u.groups.contains "Legal User" || u.groups.contains "legal_user" then
        some "LEGAL_USER"
      else if u.groups.contains "Finance Viewer" || u.groups.contains "finance_viewer" then
        some "FINANCE_VIEWER"
      else if u.is_staff then some "LEGAL_USER"
      else some "USER"

/-- Model of `is_legal_admin` (permissions.py). -/
def is_legal_admin (user : Option User) : Bool :=
  get_user_role user == some "LEGAL_ADMIN"

/-- Model of `is_legal_user` (permissions.py): LEGAL_USER role or higher. -/
def is_legal_user (user : Option User) : Bool :=
  get_user_role user == some "LEGAL_ADMIN" || get_user_role user == some "LEGAL_USER"

/-- Model of `is_finance_viewer` (permissions.py). -/
def is_finance_viewer (user : Option User) : Bool :=
  get_user_role user == some "FINANCE_VIEWER"

/-- Model of `can_view_contract` (permissions.py): admin, owner/creator, direct
share, department share, department = BU/team match, finance viewer on
non-confidential, or legal user tied to an approval. -/
def can_view_contract (db : Db) (user : Option User) (c : Contract) : Bool :=
  match user with
  | none => false
  | some u =>
    if !u.is_authenticated then false
    else if is_legal_admin (some u) then true
    else if c.owner == some u.uid || c.created_by == some u.uid then true
    else if db.shares.any fun s =>
        s.contract == c.cid && s.shared_with_user == some u.uid then true
    else if (match u.department with
             | some d => db.shares.any fun s =>
                 s.contract == c.cid && s.shared_with_department == some d
             | none => false) then true
    else if (match u.department, c.bu_team with
             | some d, some b => d == b
             | _, _ => false) then true
    else if is_finance_viewer (some u) && !c.is_confidential then true
    else if is_legal_user (some u) &&
        ((db.approvals.any fun a => a.contract == c.cid && a.approver == u.uid) ||
         (db.approvals.any fun a => a.contract == c.cid && a.requested_by == u.uid)) then
      true
    else false

/-- Model of `can_edit_contract` (permissions.py): admin, owner, or an EDIT share
targeting the user or the user's department. (It does not consult
`created_by`.) -/
def can_edit_contract (db : Db) (user : Option User) (c : Contract) : Bool :=
  match user with
  | none => false
  | some u =>
    if !u.is_authenticated then false
    else if is_legal_admin (some u) then true
    else if c.owner == some u.uid then true
    else if db.shares.any fun s =>
        s.contract == c.cid && s.shared_with_user == some u.uid &&
          s.access_level == "EDIT" then true
    else if (match u.department with
             | some d => db.shares.any fun s =>
                 s.contract == c.cid && s.shared_with_department == some d &&
                   s.access_level == "EDIT"
             | none => false) then true
    else false

/-- Model of `can_delete_contract` (permissions.py): admin always; otherwise the
owner, but only while the contract is in DRAFT status. -/
def can_delete_contract (user : Option User) (c : Contract) : Bool :=
  match user with
  | none => false
  | some u =>
    if !u.is_authenticated then false
    else if is_legal_admin (some u) then true
    else if c.owner == some u.uid && c.status == "DRAFT" then true
    else false

/-- Model of `can_manage_approvals` (permissions.py): admin, owner, or anyone who
can edit. -/
def can_manage_approvals (db : Db) (user : Option User) (c : Contract) : Bool :=
  match user with
  | none => false
  | some u =>
    if !u.is_authenticated then false
    else if is_legal_admin (some u) then true
    else if c.owner == some u.uid then true
    else can_edit_contract db (some u) c

/-- Model of `can_approve_request` (permissions.py): the designated approver, or an
admin acting on behalf. -/
def can_approve_request (user : Option User) (a : AdditionalApproval) : Bool :=
  match user with
  | none => false
  | some u =>
    if !u.is_authenticated then false
    else if a.approver == u.uid then true
    else if is_legal_admin (some u) then true
    else false

/-- Model of `can_change_status` (permissions.py): admin, owner, or edit
permission. -/
def can_change_status (db : Db) (user : Option User) (c : Contract) : Bool :=
  match user with
  | none => false
  | some u =>
    if !u.is_authenticated then false
    else if is_legal_admin (some u) then true
    else if c.owner == some u.uid then true
    else can_edit_contract db (some u) c

/-- Model of `can_share_contract` (permissions.py): admin or owner only. -/
def can_share_contract (user : Option User) (c : Contract) : Bool :=
  match user with
  | none => false
  | some u =>
    if !u.is_authenticated then false
    else if is_legal_admin (some u) then true
    else if c.owner == some u.uid then true
    else false

/-! ### Contract number generation (`Contract.save`, models.py) -/

/-- Python `str.upper()` on one ASCII character, as used on the UUID
prefix in `Contract.save`. -/
def pyUpperChar (ch : Char) : Char :=
  if 97 ≤ ch.toNat ∧ ch.toNat ≤ 122 then Char.ofNat (ch.toNat - 32) else ch

/-- Python `str.upper()` on a string of ASCII characters. -/
def pyUpper (s : String) : String := ⟨s.data.map pyUpperChar⟩

/-- Python slicing `s[:n]`. -/
def pyTake (s : String) (n : Nat) : String := ⟨s.data.take n⟩

/-- One decimal digit rendered as a character. -/
def digitChar (d : Nat) : Char := Char.ofNat (48 + d)

/-- Model of `timezone.now().strftime('%Y%m')` for a year in 1000–9999:
four year digits followed by two zero-padded month digits. -/
def ymStr (year month : Nat) : String :=
  ⟨[digitChar (year / 1000 % 10), digitChar (year / 100 % 10),
    digitChar (year / 10 % 10), digitChar (year % 10),
    digitChar (month / 10 % 10), digitChar (month % 10)]⟩

/-- Model of `Contract.save` (models.py): on a save with no contract
number yet, assigns `CNT-<YYYYMM>-<first 8 chars of the UUID, uppercased>`;
any other save leaves every field, the number included, unchanged. -/
def Contract.save (c : Contract) (year month : Nat) : Contract :=
  if c.contract_number == "" then
    { c with contract_number :=
        "CNT-" ++ ymStr year month ++ "-" ++ pyUpper (pyTake c.cid 8) }
  else c

/-- Decimal digit character test. -/
def isDigitChar (ch : Char) : Bool := 48 ≤ ch.toNat && ch.toNat ≤ 57

/-- Uppercase alphanumeric character test (digits or A–Z). -/
def isUpperAlnumChar (ch : Char) : Bool :=
  isDigitChar ch || (65 ≤ ch.toNat && ch.toNat ≤ 90)

/-- Lowercase hex character test (digits or a–f), the alphabet of a
rendered UUID apart from hyphens. -/
def isLowerHexChar (ch : Char) : Bool :=
  isDigitChar ch || (97 ≤ ch.toNat && ch.toNat ≤ 102)

/-- The claimed contract-number shape, `CNT-<6 digits>-<8 uppercase
alphanumerics>`: 19 characters, the literal prefix `CNT-`, six digits, a
hyphen at position 10, and eight uppercase alphanumerics. -/
def contractNumberFormatOk (s : String) : Bool :=
  s.data.length == 19 &&
  (s.data.take 4 == ['C', 'N', 'T', '-']) &&
  ((s.data.drop 4).take 6).all isDigitChar &&
  ((s.data.drop 10).take 1 == ['-']) &&
  (s.data.drop 11).all isUpperAlnumChar

/-! ### Contract files (`ContractFile.save`, models.py) -/

/-- A `ContractFile` row (models.py), with the fields the primary-file
logic touches. -/
structure ContractFile where
  pk : Nat
  contract : String
  original_filename : String
  is_primary : Bool
deriving Repr, DecidableEq

/-- One row's fate under the demotion queryset update in
`ContractFile.save`: rows of the same contract that are primary and have
a different pk get `is_primary` cleared. -/
def demoteOther (f g : ContractFile) : ContractFile :=
  if g.contract == f.contract && g.is_primary && !(g.pk == f.pk) then
    { g with is_primary := false }
  else g

/-- The row write the ORM `save` performs: an update when the pk already
exists in the table, an insert otherwise. -/
def upsertByPk (files : List ContractFile) (f : ContractFile) :
    List ContractFile :=
  if files.any fun g => g.pk == f.pk then
    files.map fun g => if g.pk == f.pk then f else g
  else files ++ [f]

/-- Model of `ContractFile.save` (models.py) acting on the file table:
when the saved file is primary, first demote every other primary file of
the same contract (`update(is_primary=False)` over the filtered queryset
excluding this pk), then write the row itself. -/
def ContractFile.save (files : List ContractFile) (f : ContractFile) :
    List ContractFile :=
  upsertByPk (if f.is_primary then files.map (demoteOther f) else files) f

/-- At most one primary file for contract `cid`. -/
def atMostOnePrimary (files : List ContractFile) (cid : String) : Prop :=
  (files.countP fun g => g.contract == cid && g.is_primary) ≤ 1

instance (files : List ContractFile) (cid : String) :
    Decidable (atMostOnePrimary files cid) := by
  unfold atMostOnePrimary; infer_instance

/-! ### Contract versions (`services.py`) -/

/-- A `ContractVersion` row (models.py). -/
structure ContractVersion where
  contract : String
  version_number : Nat
  label : String
  notes : String
  created_by : Option Nat
deriving Repr, DecidableEq

/-- The version numbers recorded for contract `cid`, in table order. -/
def versionNumbersOf (versions : List ContractVersion) (cid : String) :
    List Nat :=
  (versions.filter fun v => v.contract == cid).map fun v => v.version_number

/-- Model of `contract.versions.order_by('-version_number').first()`:
the largest version number the contract has, if any. -/
def lastVersionNumberOf (versions : List ContractVersion) (cid : String) :
    Option Nat :=
  (versionNumbersOf versions cid).foldl
    (fun acc n =>
      match acc with
      | none => some n
      | some m => some (Nat.max m n)) none

/-- Model of `ContractOperationsService.add_version` (services.py): the
next number is last + 1, or 1 when the contract has no versions yet;
returns the grown table and the created row. -/
def add_version (userId : Nat) (versions : List ContractVersion)
    (c : Contract) (label notes : String) :
    List ContractVersion × ContractVersion :=
  let nextv :=
    match lastVersionNumberOf versions c.cid with
    | some m => m + 1
    | none => 1
  let v : ContractVersion :=
    { contract := c.cid, version_number := nextv, label := label,
      notes := notes, created_by := some userId }
  (versions ++ [v], v)

/-! ### Contract creation (`services.py`) and the wizard (`views.py`) -/

/-- An `AuditLog` row (models.py), with the fields the claims read. -/
structure AuditLog where
  contract : Option String
  action : String
  actor : Option Nat
deriving Repr, DecidableEq

/-- The keyword data handed to `Contract.objects.create(**data)` by
`create_contract` — the fields the wizard populates that the claims
read. -/
structure ContractData where
  title : String
  status : String
  category : String
  bu_team : Option Nat
  effective_date : Option String
  owner : Option Nat
  is_confidential : Bool
deriving Repr, DecidableEq

/-- The rows produced by one `create_contract` call. -/
structure CreatedContract where
  contract : Contract
  versions : List ContractVersion
  files : List ContractFile
  audit : List AuditLog
deriving Repr, DecidableEq

/-- Model of `ContractOperationsService.create_contract` (services.py):
stamps `created_by`, defaults `owner` to the acting user, creates the
contract (whose first save assigns the contract number), attaches the
uploaded file as primary when present, creates version 1 labelled
"Initial Version", and logs a CREATE_CONTRACT audit event. `newId` is the
fresh UUID rendered as a string; `year`/`month` the creation date. -/
def create_contract (userId : Nat) (data : ContractData)
    (file : Option String) (newId : String) (year month : Nat) :
    CreatedContract :=
  let ownerId :=
    match data.owner with
    | some o => some o
    | none => some userId
  let c : Contract :=
    Contract.save
      { cid := newId, contract_number := "", title := data.title,
        status := data.status, category := data.category,
        owner := ownerId, created_by := some userId,
        bu_team := data.bu_team, is_confidential := data.is_confidential,
        effective_date := data.effective_date } year month
  let fs : List ContractFile :=
    match file with
    | some name =>
      [{ pk := 1, contract := newId, original_filename := name,
         is_primary := true }]
    | none => []
  { contract := c,
    versions := [{ contract := newId, version_number := 1,
                   label := "Initial Version", notes := "",
                   created_by := some userId }],
    files := fs,
    audit := [{ contract := some newId, action := "CREATE_CONTRACT",
                actor := some userId }] }

/-- The ordered wizard steps (`ContractCreateWizardView.STEPS`,
views.py). -/
def STEPS : List String :=
  ["method", "upload", "name", "basic", "party", "dates", "value",
   "owner_tags"]

/-- The accumulated wizard session state the commit path reads
(`wizard_data` in views.py, flattened to the fields `_save_contract`
extracts); `none` models a step dictionary not yet filled in. -/
structure WizardData where
  method : Option String
  name_title : Option String
  basic_category : Option String
  basic_bu_team : Option Nat
  dates_effective : Option String
  owner : Option Nat
  is_confidential : Option Bool
deriving Repr, DecidableEq

/-- Model of `ContractCreateWizardView._save_contract` (views.py): builds
the contract data from the accumulated wizard state — status DRAFT when
saving as draft, PENDING otherwise; owner defaulting to the acting user —
and calls `create_contract`. -/
def wizard_save_contract (userId : Nat) (w : WizardData)
    (file : Option String) (as_draft : Bool) (newId : String)
    (year month : Nat) : CreatedContract :=
  create_contract userId
    { title := w.name_title.getD "Untitled Contract",
      status := if as_draft then "DRAFT" else "PENDING",
      category := w.basic_category.getD "OTHER",
      bu_team := w.basic_bu_team,
      effective_date := w.dates_effective,
      owner := some (w.owner.getD userId),
      is_confidential := w.is_confidential.getD false }
    file newId year month

/-- Outcome of one wizard POST. -/
inductive WizardResult where
  | redirect (step : String)
  | rerender
  | committed (r : CreatedContract)
deriving Repr, DecidableEq

/-- Model of `ContractCreateWizardView.post` (views.py), with the
per-step form validation abstracted to `formValid` and `w` the
accumulated (post-merge) wizard state: back navigation honouring the
template skip, save-as-draft at any step, the unvalidated value step, the
conditional skip of the upload step, and the final-step commit. -/
def wizard_post (userId : Nat) (step action : String) (w : WizardData)
    (file : Option String) (formValid : Bool) (newId : String)
    (year month : Nat) : WizardResult :=
  if action == "back" then
    let idx := if STEPS.contains step then STEPS.indexOf step else 0
    if 0 < idx then
      let prev := STEPS.getD (idx - 1) "method"
      if prev == "upload" && w.method == some "template" then
        .redirect "method"
      else .redirect prev
    else .redirect "method"
  else if action == "save_draft" then
    .committed (wizard_save_contract userId w file true newId year month)
  else if step == "value" then .redirect "owner_tags"
  else if formValid then
    if step == "method" then
      if w.method == some "template" then .redirect "name"
      else .redirect "upload"
    else
      let idx := if STEPS.contains step then STEPS.indexOf step else 0
      if idx < STEPS.length - 1 then
        let next := STEPS.getD (idx + 1) "method"
        if next == "upload" && w.method == some "template" then
          .redirect "name"
        else .redirect next
      else
        .committed (wizard_save_contract userId w file false newId year month)
  else .rerender

/-! ### Contract deletion under the `on_delete` declarations (models.py) -/

/-- A `Clause` row (models.py), reduced to its contract ownership. -/
structure Clause where
  pk : Nat
  contract : String
deriving Repr, DecidableEq

/-- A `Deviation` row (models.py), reduced to its contract ownership. -/
structure Deviation where
  pk : Nat
  contract : String
deriving Repr, DecidableEq

/-- A `RiskItem` row (models.py), reduced to its contract ownership. -/
structure RiskItem where
  pk : Nat
  contract : String
deriving Repr, DecidableEq

/-- A `SignatureRecord` row (models.py), reduced to its contract
ownership. -/
structure SignatureRecord where
  pk : Nat
  contract : String
deriving Repr, DecidableEq

/-- The tables relevant to deleting a contract. -/
structure DbState where
  contracts : List Contract
  files : List ContractFile
  versions : List ContractVersion
  shares : List ContractShare
  approvals : List AdditionalApproval
  clauses : List Clause
  deviations : List Deviation
  risks : List RiskItem
  signatures : List SignatureRecord
  audit_logs : List AuditLog
deriving Repr, DecidableEq

/-- Deletion of a `Contract` row under the `on_delete` declarations of
models.py: every child table (`ContractFile`, `ContractVersion`,
`ContractShare`, `AdditionalApproval`, `Clause`, `Deviation`, `RiskItem`,
`SignatureRecord`) declares `on_delete=CASCADE`, and so does
`AuditLog.contract` (models.py lines 663–669), so audit rows referencing
the deleted contract are removed as well. -/
def deleteContract (db : DbState) (cid : String) : DbState :=
  { contracts := db.contracts.filter fun c => !(c.cid == cid),
    files := db.files.filter fun f => !(f.contract == cid),
    versions := db.versions.filter fun v => !(v.contract == cid),
    shares := db.shares.filter fun s => !(s.contract == cid),
    approvals := db.approvals.filter fun a => !(a.contract == cid),
    clauses := db.clauses.filter fun x => !(x.contract == cid),
    deviations := db.deviations.filter fun x => !(x.contract == cid),
    risks := db.risks.filter fun x => !(x.contract == cid),
    signatures := db.signatures.filter fun x => !(x.contract == cid),
    audit_logs := db.audit_logs.filter fun a => !(a.contract == some cid) }

/-- Model of `AuditLogAdmin.has_add_permission` (admin.py). -/
def auditLogAdminHasAddPermission : Bool := false

/-- Model of `AuditLogAdmin.has_change_permission` (admin.py). -/
def auditLogAdminHasChangePermission : Bool := false

/-- Model of `AuditLogAdmin.has_delete_permission` (admin.py). -/
def auditLogAdminHasDeletePermission : Bool := false

/-! ### Approval decisions (`forms.py`, `services.py`, `views.py`) -/

/-- Model of `ApprovalDecisionForm` validation (forms.py): the decision
must be one of the two declared choices, and per `clean` a rejection
requires a non-empty comment. -/
def approvalDecisionFormValid (decision comment : String) : Bool :=
  (decision == "APPROVED" || decision == "REJECTED") &&
  !(decision == "REJECTED" && comment == "")

/-- Model of `ApprovalService.process_decision` (services.py): stores the
decision as the status, the comment, and the decision time. -/
def process_decision (a : AdditionalApproval) (decision comment : String)
    (now : Nat) : AdditionalApproval :=
  { a with status := decision, decision_comment := comment,
           decided_at := some now }

/-- Outcome of one POST to the approval detail view. -/
inductive ApprovalPostResult where
  | permissionDenied
  | alreadyDecided
  | invalidForm
  | decided (a : AdditionalApproval)
deriving Repr, DecidableEq

/-- Model of `ApprovalDetailView.post` (views.py): permission check, then
the already-decided guard, then form validation, then
`process_decision`. -/
def approvalDetailPost (user : Option User) (a : AdditionalApproval)
    (decision comment : String) (now : Nat) : ApprovalPostResult :=
  if !(can_approve_request user a) then .permissionDenied
  else if !(a.status == "PENDING") then .alreadyDecided
  else if !(approvalDecisionFormValid decision comment) then .invalidForm
  else .decided (process_decision a decision comment now)

/-! ### Concrete sample rows, used by witnesses and counterexamples -/

/-- An unauthenticated user. -/
def anonUser : User :=
  { uid := 1, is_authenticated := false, is_superuser := false,
    role := none, groups := [], is_staff := false, department := none }

/-- An authenticated LEGAL_USER with no department. -/
def legalUser2 : User :=
  { uid := 2, is_authenticated := true, is_superuser := false,
    role := some "LEGAL_USER", groups := [], is_staff := false,
    department := none }

/-- An authenticated FINANCE_VIEWER. -/
def finViewer3 : User :=
  { uid := 3, is_authenticated := true, is_superuser := false,
    role := some "FINANCE_VIEWER", groups := [], is_staff := false,
    department := none }

/-- An authenticated superuser; role resolution yields LEGAL_ADMIN. -/
def adminOwner4 : User :=
  { uid := 4, is_authenticated := true, is_superuser := true,
    role := none, groups := [], is_staff := false, department := none }

/-- An authenticated default-role user. -/
def plainUser5 : User :=
  { uid := 5, is_authenticated := true, is_superuser := false,
    role := some "USER", groups := [], is_staff := false,
    department := none }

/-- A confidential active contract owned and created by user 1. -/
def confContract : Contract :=
  { cid := "c1", contract_number := "CNT-202401-AAAA1111", title := "Conf",
    status := "ACTIVE", category := "LEGAL", owner := some 1,
    created_by := some 1, bu_team := none, is_confidential := true,
    effective_date := none }

/-- A non-confidential variant of `confContract`. -/
def openContract : Contract := { confContract with is_confidential := false }

/-- A draft contract owned by user 5. -/
def draftContract : Contract :=
  { confContract with
    cid := "c2", status := "DRAFT", owner := some 5,
    is_confidential := false }

/-- An active contract owned by the admin user 4. -/
def activeContract : Contract :=
  { confContract with
    cid := "c3", status := "ACTIVE", owner := some 4,
    is_confidential := false }

/-- A contract created (but not owned) by user 2. -/
def createdByContract : Contract :=
  { confContract with
    cid := "c4", owner := some 1, created_by := some 2,
    is_confidential := false }

/-- An empty permission database. -/
def emptyDb : Db := { shares := [], approvals := [] }

/-- A pending approval on contract c1 with user 2 as approver. -/
def pendingApproval : AdditionalApproval :=
  { aid := 1, contract := "c1", requested_by := 9, approver := 2,
    status := "PENDING", reason := "", decided_at := none,
    decision_comment := "" }

/-- A permission database holding only `pendingApproval`. -/
def approvalDb : Db := { shares := [], approvals := [pendingApproval] }

/-- An audit row referencing contract c1. -/
def auditRowC1 : AuditLog :=
  { contract := some "c1", action := "CREATE_CONTRACT", actor := some 1 }

/-- An audit row referencing no contract. -/
def auditRowFree : AuditLog :=
  { contract := none, action := "VIEW", actor := some 1 }

/-- A database state with contract c1, one child row per table, and two
audit rows (one referencing c1, one free-standing). -/
def dbC4 : DbState :=
  { contracts := [confContract],
    files := [{ pk := 1, contract := "c1", original_filename := "a.pdf",
                is_primary := true }],
    versions := [{ contract := "c1", version_number := 1,
                   label := "Initial Version", notes := "",
                   created_by := some 1 }],
    shares := [{ contract := "c1", shared_with_user := some 2,
                 shared_with_department := none, access_level := "VIEW" }],
    approvals := [pendingApproval],
    clauses := [{ pk := 1, contract := "c1" }],
    deviations := [{ pk := 1, contract := "c1" }],
    risks := [{ pk := 1, contract := "c1" }],
    signatures := [{ pk := 1, contract := "c1" }],
    audit_logs := [auditRowC1, auditRowFree] }

end Contracts

namespace Contracts

/-! ## Claim theorems -/

/-- C10: every contract permission predicate — view, edit, delete, share,
change-status, manage-approvals, approve-request — returns false (without
raising) when the acting user is missing or not authenticated. -/
theorem c10_permissions_false_for_anonymous
    (db : Db) (c : Contract) (a : AdditionalApproval) (u : User)
    (h : u.is_authenticated = false) :
    can_view_contract db none c = false ∧
    can_view_contract db (some u) c = false ∧
    can_edit_contract db none c = false ∧
    can_edit_contract db (some u) c = false ∧
    can_delete_contract none c = false ∧
    can_delete_contract (some u) c = false ∧
    can_share_contract none c = false ∧
    can_share_contract (some u) c = false ∧
    can_change_status db none c = false ∧
    can_change_status db (some u) c = false ∧
    can_manage_approvals db none c = false ∧
    can_manage_approvals db (some u) c = false ∧
    can_approve_request none a = false ∧
    can_approve_request (some u) a = false := by
  simp [can_view_contract, can_edit_contract, can_delete_contract,
        can_share_contract, can_change_status, can_manage_approvals,
        can_approve_request, h]

/-- Witness for C10 at a concrete unauthenticated user. -/
theorem c10_permissions_false_for_anonymous_witness :
    can_view_contract emptyDb none confContract = false ∧
    can_view_contract emptyDb (some anonUser) confContract = false ∧
    can_edit_contract emptyDb none confContract = false ∧
    can_edit_contract emptyDb (some anonUser) confContract = false ∧
    can_delete_contract none confContract = false ∧
    can_delete_contract (some anonUser) confContract = false ∧
    can_share_contract none confContract = false ∧
    can_share_contract (some anonUser) confContract = false ∧
    can_change_status emptyDb none confContract = false ∧
    can_change_status emptyDb (some anonUser) confContract = false ∧
    can_manage_approvals emptyDb none confContract = false ∧
    can_manage_approvals emptyDb (some anonUser) confContract = false ∧
    can_approve_request none pendingApproval = false ∧
    can_approve_request (some anonUser) pendingApproval = false :=
  c10_permissions_false_for_anonymous emptyDb confContract pendingApproval
    anonUser rfl

/-- C5 counterexample: the claim's unqualified "for every contract owner,
can_delete returns true iff the status is Draft" fails for an owner who is
also an administrator — here a superuser owner of an ACTIVE contract for
whom `can_delete_contract` returns true. -/
theorem c5_counterexample :
    activeContract.owner = some adminOwner4.uid ∧
    activeContract.status = "ACTIVE" ∧
    activeContract.status ≠ "DRAFT" ∧
    can_delete_contract (some adminOwner4) activeContract = true := by
  refine ⟨rfl, rfl, by decide, by decide⟩

/-- C5 (amended): for every authenticated non-admin owner,
`can_delete_contract` returns true exactly when the contract is in DRAFT
status. -/
theorem c5_owner_delete_draft_only
    (u : User) (c : Contract)
    (hauth : u.is_authenticated = true)
    (hadmin : is_legal_admin (some u) = false)
    (howner : c.owner = some u.uid) :
    can_delete_contract (some u) c = true ↔ c.status = "DRAFT" := by
  simp [can_delete_contract, hauth, hadmin, howner]

/-- Witness for C5 at the concrete draft contract and its plain owner. -/
theorem c5_owner_delete_draft_only_witness :
    can_delete_contract (some plainUser5) draftContract = true :=
  (c5_owner_delete_draft_only plainUser5 draftContract rfl (by decide)
    rfl).mpr rfl

/-- C3: a decision can only be produced from a Pending approval, only to
Approved or Rejected, with `decided_at` and `decision_comment` set, and a
decided approval can never be decided again; a Rejected decision with an
empty comment is rejected as invalid with no mutation; an Approved
decision with any (also empty) comment succeeds. -/
theorem c3_approval_decision_once
    (user : Option User) (a : AdditionalApproval) (d cm : String)
    (now : Nat) :
    (∀ a2, approvalDetailPost user a d cm now = .decided a2 →
        a.status = "PENDING" ∧
        (a2.status = "APPROVED" ∨ a2.status = "REJECTED") ∧
        a2.decided_at = some now ∧ a2.decision_comment = cm ∧
        ∀ user2 d2 cm2 now2 b,
          approvalDetailPost user2 a2 d2 cm2 now2 ≠ .decided b) ∧
    (can_approve_request user a = true → a.status = "PENDING" →
        approvalDetailPost user a "REJECTED" "" now = .invalidForm) ∧
    (can_approve_request user a = true → a.status = "PENDING" →
        approvalDetailPost user a "APPROVED" cm now =
          .decided { a with
                     status := "APPROVED", decision_comment := cm,
                     decided_at := some now }) := by
  refine ⟨?_, ?_, ?_⟩
  · intro a2 h
    unfold approvalDetailPost at h
    cases hperm : can_approve_request user a with
    | false => simp [hperm] at h
    | true =>
      cases hst : a.status == "PENDING" with
      | false => simp [hperm, hst] at h
      | true =>
        cases hform : approvalDecisionFormValid d cm with
        | false => simp [hperm, hst, hform] at h
        | true =>
          simp only [hperm, hst, hform, Bool.not_true, Bool.false_eq_true,
            if_false] at h
          have ha2 : a2 = process_decision a d cm now :=
            (ApprovalPostResult.decided.injEq _ _).mp h.symm
          have hd : d = "APPROVED" ∨ d = "REJECTED" := by
            have := (Bool.and_eq_true _ _).mp hform
            rcases (Bool.or_eq_true _ _).mp this.1 with h1 | h1
            · exact Or.inl (eq_of_beq h1)
            · exact Or.inr (eq_of_beq h1)
          have hstatus : a2.status = d := by
            rw [ha2]; rfl
          refine ⟨eq_of_beq hst, ?_, ?_, ?_, ?_⟩
          · rw [hstatus]; exact hd
          · rw [ha2]; rfl
          · rw [ha2]; rfl
          · intro user2 d2 cm2 now2 b
            have hnp : (a2.status == "PENDING") = false := by
              rw [hstatus]
              rcases hd with h1 | h1 <;> rw [h1] <;> decide
            unfold approvalDetailPost
            cases hperm2 : can_approve_request user2 a2 with
            | false => simp [hperm2]
            | true => simp [hperm2, hnp]
  · intro hperm hst
    have hb : (a.status == "PENDING") = true := beq_iff_eq.mpr hst
    simp [approvalDetailPost, hperm, hb, approvalDecisionFormValid]
  · intro hperm hst
    have hb : (a.status == "PENDING") = true := beq_iff_eq.mpr hst
    have hv : approvalDecisionFormValid "APPROVED" cm = true := by
      simp [approvalDecisionFormValid]
    simp [approvalDetailPost, hperm, hb, hv, process_decision]

/-- Witness for C3: the designated approver approves a concrete pending
approval with an empty comment. -/
theorem c3_approval_decision_once_witness :
    approvalDetailPost (some legalUser2) pendingApproval "APPROVED" "" 5 =
      .decided { pendingApproval with
                 status := "APPROVED",
                 decision_comment := "", decided_at := some 5 } :=
  (c3_approval_decision_once (some legalUser2) pendingApproval "APPROVED"
    "" 5).2.2 (by decide) rfl

/-- C2 counterexample: user 2 is the creator (but not the owner) of a
contract, authenticated, not an administrator, with no shares at all, yet
`can_edit_contract` returns false — being creator does not grant edit. -/
theorem c2_counterexample :
    createdByContract.created_by = some legalUser2.uid ∧
    legalUser2.is_authenticated = true ∧
    can_edit_contract emptyDb (some legalUser2) createdByContract = false := by
  refine ⟨rfl, rfl, by decide⟩

/-- C2 (amended): the creator of a contract can always view it, but
creatorship alone grants neither edit, nor change-status, nor share: for
an authenticated creator who is not the owner, not an administrator, and
holds no EDIT share, `can_edit_contract`, `can_change_status` and
`can_share_contract` all return false. -/
theorem c2_creator_can_view_not_edit
    (db : Db) (u : User) (c : Contract)
    (hauth : u.is_authenticated = true)
    (hcreator : c.created_by = some u.uid)
    (hadmin : is_legal_admin (some u) = false)
    (howner : c.owner ≠ some u.uid)
    (hushare : ∀ s ∈ db.shares,
      ¬(s.contract = c.cid ∧ s.shared_with_user = some u.uid ∧
        s.access_level = "EDIT"))
    (hdshare : ∀ s ∈ db.shares, ∀ d, u.department = some d →
      ¬(s.contract = c.cid ∧ s.shared_with_department = some d ∧
        s.access_level = "EDIT")) :
    can_view_contract db (some u) c = true ∧
    can_edit_contract db (some u) c = false ∧
    can_change_status db (some u) c = false ∧
    can_share_contract (some u) c = false := by
  have hob : (c.owner == some u.uid) = false := beq_eq_false_iff_ne.mpr howner
  have hcb : (c.created_by == some u.uid) = true := beq_iff_eq.mpr hcreator
  have husb : (db.shares.any fun s =>
      s.contract == c.cid && s.shared_with_user == some u.uid &&
        s.access_level == "EDIT") = false := by
    rw [List.any_eq_false]
    intro s hs
    have := hushare s hs
    simp only [Bool.and_eq_true, beq_iff_eq]
    tauto
  have hedit : can_edit_contract db (some u) c = false := by
    unfold can_edit_contract
    cases hdep : u.department with
    | none => simp [hauth, hadmin, hob, husb, hdep]
    | some dpt =>
      have hdsb : (db.shares.any fun s =>
          s.contract == c.cid && s.shared_with_department == some dpt &&
            s.access_level == "EDIT") = false := by
        rw [List.any_eq_false]
        intro s hs
        have := hdshare s hs dpt hdep
        simp only [Bool.and_eq_true, beq_iff_eq]
        tauto
      simp [hauth, hadmin, hob, husb, hdep, hdsb]
  refine ⟨?_, hedit, ?_, ?_⟩
  · simp [can_view_contract, hauth, hadmin, hob, hcb]
  · simp [can_change_status, hauth, hadmin, hob, hedit]
  · simp [can_share_contract, hauth, hadmin, hob]

/-- Witness for C2 at the concrete creator user 2. -/
theorem c2_creator_can_view_not_edit_witness :
    can_view_contract emptyDb (some legalUser2) createdByContract = true ∧
    can_edit_contract emptyDb (some legalUser2) createdByContract = false ∧
    can_change_status emptyDb (some legalUser2) createdByContract = false ∧
    can_share_contract (some legalUser2) createdByContract = false :=
  c2_creator_can_view_not_edit emptyDb legalUser2 createdByContract rfl rfl
    (by decide) (by decide) (by intro s hs; simp [emptyDb] at hs)
    (by intro s hs; simp [emptyDb] at hs)

/-- C1 counterexample: user 2 is authenticated, not an administrator,
neither owner nor creator, the share table is empty, the user has no
department (so no department share and no business-unit match), and the
contract is confidential — yet `can_view_contract` returns true, because
the user is a LEGAL_USER who is the approver of an approval request tied
to the contract (the branch the claim overlooks). -/
theorem c1_counterexample :
    legalUser2.is_authenticated = true ∧
    is_legal_admin (some legalUser2) = false ∧
    confContract.owner ≠ some legalUser2.uid ∧
    confContract.created_by ≠ some legalUser2.uid ∧
    approvalDb.shares = [] ∧
    legalUser2.department = none ∧
    confContract.is_confidential = true ∧
    can_view_contract approvalDb (some legalUser2) confContract = true := by
  refine ⟨rfl, by decide, by decide, by decide, rfl, rfl, rfl, by decide⟩

/-- C1 (amended): for every authenticated non-admin user who is neither
owner nor creator, has no share targeting them or their department, whose
department does not match the contract's business unit, and who is tied
to no approval request on the contract as approver or requester,
`can_view_contract` returns false for a confidential contract, and true
for a non-confidential contract only if the user holds the FINANCE_VIEWER
role. -/
theorem c1_view_rules_for_unrelated_user
    (db : Db) (u : User) (c : Contract)
    (hauth : u.is_authenticated = true)
    (hadmin : is_legal_admin (some u) = false)
    (howner : c.owner ≠ some u.uid)
    (hcreator : c.created_by ≠ some u.uid)
    (hushare : ∀ s ∈ db.shares,
      ¬(s.contract = c.cid ∧ s.shared_with_user = some u.uid))
    (hdshare : ∀ s ∈ db.shares, ∀ d, u.department = some d →
      ¬(s.contract = c.cid ∧ s.shared_with_department = some d))
    (hdept : ∀ d b, u.department = some d → c.bu_team = some b → d ≠ b)
    (happr : ∀ a ∈ db.approvals, a.contract = c.cid →
      a.approver ≠ u.uid ∧ a.requested_by ≠ u.uid) :
    (c.is_confidential = true → can_view_contract db (some u) c = false) ∧
    (c.is_confidential = false → can_view_contract db (some u) c = true →
      is_finance_viewer (some u) = true) := by
  have hob : (c.owner == some u.uid) = false := beq_eq_false_iff_ne.mpr howner
  have hcb : (c.created_by == some u.uid) = false :=
    beq_eq_false_iff_ne.mpr hcreator
  have husb : (db.shares.any fun s =>
      s.contract == c.cid && s.shared_with_user == some u.uid) = false := by
    rw [List.any_eq_false]
    intro s hs
    have := hushare s hs
    simp only [Bool.and_eq_true, beq_iff_eq]
    tauto
  have happrA : (db.approvals.any fun a =>
      a.contract == c.cid && a.approver == u.uid) = false := by
    rw [List.any_eq_false]
    intro a ha
    have := fun hc => (happr a ha hc).1
    simp only [Bool.and_eq_true, beq_iff_eq]
    tauto
  have happrB : (db.approvals.any fun a =>
      a.contract == c.cid && a.requested_by == u.uid) = false := by
    rw [List.any_eq_false]
    intro a ha
    have := fun hc => (happr a ha hc).2
    simp only [Bool.and_eq_true, beq_iff_eq]
    tauto
  have hmain : can_view_contract db (some u) c =
      (is_finance_viewer (some u) && !c.is_confidential) := by
    unfold can_view_contract
    cases hdep : u.department with
    | none =>
      simp [hauth, hadmin, hob, hcb, husb, hdep, happrA, happrB]
    | some dpt =>
      have hdsb : (db.shares.any fun s =>
          s.contract == c.cid && s.shared_with_department == some dpt) =
            false := by
        rw [List.any_eq_false]
        intro s hs
        have := hdshare s hs dpt hdep
        simp only [Bool.and_eq_true, beq_iff_eq]
        tauto
      cases hbu : c.bu_team with
      | none =>
        simp [hauth, hadmin, hob, hcb, husb, hdep, hdsb, hbu, happrA, happrB]
      | some b =>
        have hne : (dpt == b) = false :=
          beq_eq_false_iff_ne.mpr (hdept dpt b hdep hbu)
        simp [hauth, hadmin, hob, hcb, husb, hdep, hdsb, hbu, hne,
          happrA, happrB]
  constructor
  · intro hconf
    rw [hmain, hconf]
    simp
  · intro hconf hview
    rw [hmain, hconf] at hview
    simpa using hview

/-- Witness for C1 at the concrete default-role user 5 and the
confidential contract. -/
theorem c1_view_rules_for_unrelated_user_witness :
    can_view_contract emptyDb (some plainUser5) confContract = false :=
  (c1_view_rules_for_unrelated_user emptyDb plainUser5 confContract rfl
    (by decide) (by decide) (by decide)
    (by intro s hs; simp [emptyDb] at hs)
    (by intro s hs; simp [emptyDb] at hs)
    (by intro d b hd; simp [plainUser5] at hd)
    (by intro a ha; simp [emptyDb] at ha)).1 rfl

/-- C4 counterexample: deleting contract c1 from a concrete database
removes the audit row referencing c1 outright — `AuditLog.contract` is
declared `on_delete=CASCADE` (models.py lines 663–669) — instead of
keeping it with a nulled reference as the claim states; only the
free-standing audit row survives. -/
theorem c4_counterexample :
    dbC4.audit_logs = [auditRowC1, auditRowFree] ∧
    auditRowC1.contract = some "c1" ∧
    (deleteContract dbC4 "c1").audit_logs = [auditRowFree] ∧
    { auditRowC1 with contract := none } ∉
      (deleteContract dbC4 "c1").audit_logs := by
  refine ⟨rfl, rfl, by decide, by decide⟩

/-- C4 (amended): deleting a contract cascade-deletes every child row
(files, versions, shares, approvals, clauses, deviations, risks,
signatures) and also every AuditLog row referencing that contract (they
are not kept with a nulled reference); audit rows not referencing the
contract are untouched, and the admin surface forbids adding, changing
and deleting audit rows. -/
theorem c4_delete_cascades_children_and_audit
    (db : DbState) (cid : String) :
    (∀ c ∈ (deleteContract db cid).contracts, c.cid ≠ cid) ∧
    (∀ f ∈ (deleteContract db cid).files, f.contract ≠ cid) ∧
    (∀ v ∈ (deleteContract db cid).versions, v.contract ≠ cid) ∧
    (∀ s ∈ (deleteContract db cid).shares, s.contract ≠ cid) ∧
    (∀ a ∈ (deleteContract db cid).approvals, a.contract ≠ cid) ∧
    (∀ x ∈ (deleteContract db cid).clauses, x.contract ≠ cid) ∧
    (∀ x ∈ (deleteContract db cid).deviations, x.contract ≠ cid) ∧
    (∀ x ∈ (deleteContract db cid).risks, x.contract ≠ cid) ∧
    (∀ x ∈ (deleteContract db cid).signatures, x.contract ≠ cid) ∧
    (∀ a ∈ (deleteContract db cid).audit_logs, a.contract ≠ some cid) ∧
    (∀ a ∈ db.audit_logs, a.contract ≠ some cid →
      a ∈ (deleteContract db cid).audit_logs) ∧
    auditLogAdminHasAddPermission = false ∧
    auditLogAdminHasChangePermission = false ∧
    auditLogAdminHasDeletePermission = false := by
  unfold deleteContract
  refine ⟨?_, ?_, ?_, ?_, ?_, ?_, ?_, ?_, ?_, ?_, ?_, rfl, rfl, rfl⟩ <;>
    intro x hx <;> simp only [List.mem_filter] at hx ⊢
  case _ => simpa using hx.2
  case _ => simpa using hx.2
  case _ => simpa using hx.2
  case _ => simpa using hx.2
  case _ => simpa using hx.2
  case _ => simpa using hx.2
  case _ => simpa using hx.2
  case _ => simpa using hx.2
  case _ => simpa using hx.2
  case _ => simpa using hx.2
  case _ => intro hne; exact ⟨hx, by simpa using hne⟩

/-- Witness for C4: the free-standing audit row survives the concrete
deletion. -/
theorem c4_delete_cascades_children_and_audit_witness :
    auditRowFree ∈ (deleteContract dbC4 "c1").audit_logs :=
  (c4_delete_cascades_children_and_audit dbC4 "c1").2.2.2.2.2.2.2.2.2.2.1
    auditRowFree (by decide) (by decide)

/-- Every field except the contract number survives `Contract.save`
unchanged; in particular the status does. -/
theorem contract_save_status (c : Contract) (y m : Nat) :
    (Contract.save c y m).status = c.status := by
  unfold Contract.save
  split <;> rfl

/-- C9: a wizard POST with the save-as-draft action commits the
accumulated data with status DRAFT at any step; completing the final step
(`owner_tags`, with a valid form) commits it with status PENDING; either
commit creates exactly one version numbered 1 labelled "Initial Version"
and one CREATE_CONTRACT audit event. -/
theorem c9_wizard_commit_status
    (uid : Nat) (step : String) (w : WizardData) (file : Option String)
    (fv : Bool) (newId : String) (y m : Nat) :
    wizard_post uid step "save_draft" w file fv newId y m =
      .committed (wizard_save_contract uid w file true newId y m) ∧
    (wizard_save_contract uid w file true newId y m).contract.status =
      "DRAFT" ∧
    (fv = true →
      wizard_post uid "owner_tags" "next" w file fv newId y m =
        .committed (wizard_save_contract uid w file false newId y m)) ∧
    (wizard_save_contract uid w file false newId y m).contract.status =
      "PENDING" ∧
    (wizard_save_contract uid w file true newId y m).versions =
      [{ contract := newId, version_number := 1, label := "Initial Version",
         notes := "", created_by := some uid }] ∧
    (wizard_save_contract uid w file true newId y m).audit =
      [{ contract := some newId, action := "CREATE_CONTRACT",
         actor := some uid }] := by
  refine ⟨rfl, ?_, ?_, ?_, rfl, rfl⟩
  · simp [wizard_save_contract, create_contract, contract_save_status]
  · intro hfv
    subst hfv
    rfl
  · simp [wizard_save_contract, create_contract, contract_save_status]

/-- Witness for C9: the final-step commit at a concrete valid form. -/
theorem c9_wizard_commit_status_witness :
    wizard_post 7 "owner_tags" "next"
        { method := some "upload", name_title := some "NDA Vendor X",
          basic_category := some "LEGAL", basic_bu_team := none,
          dates_effective := some "2024-01-01", owner := none,
          is_confidential := none }
        none true "u1" 2024 1 =
      .committed (wizard_save_contract 7
        { method := some "upload", name_title := some "NDA Vendor X",
          basic_category := some "LEGAL", basic_bu_team := none,
          dates_effective := some "2024-01-01", owner := none,
          is_confidential := none }
        none false "u1" 2024 1) :=
  (c9_wizard_commit_status 7 "owner_tags"
    { method := some "upload", name_title := some "NDA Vendor X",
      basic_category := some "LEGAL", basic_bu_team := none,
      dates_effective := some "2024-01-01", owner := none,
      is_confidential := none }
    none true "u1" 2024 1).2.2.1 rfl

/-- Appending one version row extends a contract's number list exactly
when the row belongs to that contract. -/
theorem versionNumbers_append (versions : List ContractVersion)
    (v : ContractVersion) (cid : String) :
    versionNumbersOf (versions ++ [v]) cid =
      versionNumbersOf versions cid ++
        (if v.contract == cid then [v.version_number] else []) := by
  cases h : v.contract == cid <;>
    simp [versionNumbersOf, List.filter_append, h]

/-- Folding the running-maximum step over `range' 1 n` yields `n` (or
nothing when the range is empty). -/
theorem foldl_max_range (n : Nat) :
    (List.range' 1 n).foldl
      (fun acc k =>
        match acc with
        | none => some k
        | some m => some (Nat.max m k)) none =
      if n = 0 then none else some n := by
  induction n with
  | zero => rfl
  | succ k ih =>
    rw [List.range'_concat, List.foldl_append, ih]
    cases k with
    | zero => rfl
    | succ j =>
      simp only [Nat.succ_ne_zero, if_false, List.foldl]
      have : Nat.max (j + 1) (1 + 1 * (j + 1)) = j + 2 := by
        simp [Nat.max_def]
        omega
      rw [this]

/-- A contract whose version numbers read `1..n` has running maximum `n`. -/
theorem lastVersion_of_range (versions : List ContractVersion)
    (cid : String) (n : Nat)
    (h : versionNumbersOf versions cid = List.range' 1 n) :
    lastVersionNumberOf versions cid = if n = 0 then none else some n := by
  unfold lastVersionNumberOf
  rw [h, foldl_max_range]

/-- C8: if a contract's version numbers are exactly `1..n` (gap-free from
1), `add_version` appends exactly version `n + 1`, preserving the
gap-free shape and leaving other contracts' versions untouched; and the
creation path makes exactly one version, numbered 1, labelled
"Initial Version". -/
theorem c8_version_numbering
    (uid : Nat) (versions : List ContractVersion) (c : Contract)
    (label notes : String) (n : Nat)
    (hn : versionNumbersOf versions c.cid = List.range' 1 n) :
    versionNumbersOf (add_version uid versions c label notes).1 c.cid =
      List.range' 1 (n + 1) ∧
    (add_version uid versions c label notes).2.version_number = n + 1 ∧
    (∀ cid2, cid2 ≠ c.cid →
      versionNumbersOf (add_version uid versions c label notes).1 cid2 =
        versionNumbersOf versions cid2) ∧
    ∀ data file newId y m,
      (create_contract uid data file newId y m).versions =
        [{ contract := newId, version_number := 1,
           label := "Initial Version", notes := "",
           created_by := some uid }] := by
  have hlast := lastVersion_of_range versions c.cid n hn
  have hnext : (match lastVersionNumberOf versions c.cid with
      | some m => m + 1
      | none => 1) = n + 1 := by
    rw [hlast]
    cases n with
    | zero => rfl
    | succ k => simp
  refine ⟨?_, ?_, ?_, ?_⟩
  · unfold add_version
    simp only [hnext]
    rw [versionNumbers_append, hn]
    simp [List.range'_concat, Nat.add_comm]
  · unfold add_version
    simp only [hnext]
  · intro cid2 hne
    unfold add_version
    rw [versionNumbers_append]
    have hne2 : (c.cid == cid2) = false := beq_eq_false_iff_ne.mpr (Ne.symm hne)
    simp [hne2]
  · intro data file newId y m
    rfl

/-- Witness for C8: adding a version to a contract with no versions yet
produces the single-element number list `[1]`. -/
theorem c8_version_numbering_witness :
    versionNumbersOf (add_version 1 [] confContract "v2" "").1
      confContract.cid = List.range' 1 1 :=
  (c8_version_numbering 1 [] confContract "v2" "" 0 rfl).1

/-- The demotion pass preserves each row's primary key. -/
theorem demoteOther_pk (f g : ContractFile) : (demoteOther f g).pk = g.pk := by
  unfold demoteOther
  split <;> rfl

/-- The demotion pass preserves each row's owning contract. -/
theorem demoteOther_contract (f g : ContractFile) :
    (demoteOther f g).contract = g.contract := by
  unfold demoteOther
  split <;> rfl

/-- The demotion pass never promotes a row to primary. -/
theorem demoteOther_primary_le (f g : ContractFile) :
    (demoteOther f g).is_primary = true → g.is_primary = true := by
  unfold demoteOther
  split <;> simp

/-- A row of the saved file's contract that stays primary through the
demotion pass must carry the saved file's pk. -/
theorem demoteOther_primary_same_contract (f g : ContractFile)
    (hp : (demoteOther f g).is_primary = true)
    (hc : g.contract = f.contract) : g.pk = f.pk := by
  by_contra hne
  have hg : g.is_primary = true := demoteOther_primary_le f g hp
  have hcond : (g.contract == f.contract && g.is_primary &&
      !(g.pk == f.pk)) = true := by
    simp [beq_iff_eq, hc, hg, hne]
  unfold demoteOther at hp
  rw [if_pos hcond] at hp
  simp at hp

/-- Counting through a map that can only turn the predicate off never
grows. -/
theorem countP_map_le_of_imp {α : Type} (l : List α) (φ : α → α)
    (p : α → Bool) (h : ∀ g ∈ l, p (φ g) = true → p g = true) :
    (l.map φ).countP p ≤ l.countP p := by
  induction l with
  | nil => simp
  | cons a t ih =>
    have ht : ∀ g ∈ t, p (φ g) = true → p g = true :=
      fun g hg => h g (List.mem_cons_of_mem a hg)
    by_cases hpa : p (φ a) = true
    · have hpa2 : p a = true := h a (List.mem_cons_self a t) hpa
      rw [List.map_cons, List.countP_cons_of_pos p _ hpa,
        List.countP_cons_of_pos p _ hpa2]
      exact Nat.add_le_add_right (ih ht) 1
    · rw [List.map_cons, List.countP_cons_of_neg p _ hpa]
      by_cases hpa2 : p a = true
      · rw [List.countP_cons_of_pos p _ hpa2]
        exact Nat.le_succ_of_le (ih ht)
      · rw [List.countP_cons_of_neg p _ hpa2]
        exact ih ht

/-- In a list with duplicate-free keys whose predicate-satisfying members
all share one key, the predicate holds at most once. -/
theorem countP_le_one_of_same_key {α : Type} (l : List α) (key : α → Nat)
    (p : α → Bool) (k : Nat) (hnd : (l.map key).Nodup)
    (hall : ∀ g ∈ l, p g = true → key g = k) : l.countP p ≤ 1 := by
  induction l with
  | nil => simp
  | cons a t ih =>
    rw [List.map_cons, List.nodup_cons] at hnd
    have ht : ∀ g ∈ t, p g = true → key g = k :=
      fun g hg => hall g (List.mem_cons_of_mem a hg)
    by_cases hpa : p a = true
    · rw [List.countP_cons_of_pos p _ hpa]
      have hz : t.countP p = 0 := by
        rw [List.countP_eq_zero]
        intro g hg hpg
        apply hnd.1
        have hkey : key a = key g := by
          rw [hall a (List.mem_cons_self a t) hpa, ht g hg hpg]
        rw [hkey]
        exact List.mem_map_of_mem key hg
      omega
    · rw [List.countP_cons_of_neg p _ hpa]
      exact ih hnd.2 ht

/-- The demotion pass leaves the pk column unchanged. -/
theorem pks_map_demote (files : List ContractFile) (f : ContractFile) :
    ((files.map (demoteOther f)).map fun g => g.pk) =
      files.map fun g => g.pk := by
  rw [List.map_map]
  exact List.map_congr_left fun g _ => demoteOther_pk f g

/-- The pk-replace pass leaves the pk column unchanged. -/
theorem pks_map_replace (l : List ContractFile) (f : ContractFile) :
    ((l.map fun g => if g.pk == f.pk then f else g).map fun g => g.pk) =
      l.map fun g => g.pk := by
  rw [List.map_map]
  refine List.map_congr_left fun g _ => ?_
  simp only [Function.comp]
  by_cases h : (g.pk == f.pk) = true
  · rw [if_pos h]
    exact (eq_of_beq h).symm
  · rw [if_neg h]

/-- The insert-or-update write keeps the pk column duplicate-free. -/
theorem upsert_pks_nodup (l : List ContractFile) (f : ContractFile)
    (hnd : (l.map fun g => g.pk).Nodup) :
    ((upsertByPk l f).map fun g => g.pk).Nodup := by
  unfold upsertByPk
  split
  · rw [pks_map_replace]
    exact hnd
  · next hany =>
    rw [List.map_append, List.nodup_append]
    refine ⟨hnd, by simp, ?_⟩
    intro x hx hx2
    simp only [List.map_cons, List.map_nil, List.mem_singleton] at hx2
    subst hx2
    rw [List.mem_map] at hx
    obtain ⟨g, hg, hgpk⟩ := hx
    exact hany (List.any_eq_true.mpr ⟨g, hg, beq_iff_eq.mpr hgpk⟩)

/-- Saving a file keeps the pk column duplicate-free. -/
theorem save_pks_nodup (files : List ContractFile) (f : ContractFile)
    (hnd : (files.map fun g => g.pk).Nodup) :
    ((ContractFile.save files f).map fun g => g.pk).Nodup := by
  unfold ContractFile.save
  apply upsert_pks_nodup
  split
  · rw [pks_map_demote]
    exact hnd
  · exact hnd

/-- After saving a primary file, every row of the same contract with a
different pk is non-primary. -/
theorem save_demotes (files : List ContractFile) (f : ContractFile)
    (hfp : f.is_primary = true) :
    ∀ g ∈ ContractFile.save files f, g.contract = f.contract →
      g.pk ≠ f.pk → g.is_primary = false := by
  intro g hg hgc hgpk
  unfold ContractFile.save at hg
  rw [if_pos hfp] at hg
  unfold upsertByPk at hg
  by_contra hgp
  rw [Bool.not_eq_false] at hgp
  have hfrom : ∀ h1 : ContractFile, h1 ∈ files →
      g = demoteOther f h1 → False := by
    intro h1 _ hgd
    have hc1 : h1.contract = f.contract := by
      rw [← demoteOther_contract f h1, ← hgd]
      exact hgc
    have hp1 : (demoteOther f h1).is_primary = true := by
      rw [← hgd]
      exact hgp
    apply hgpk
    rw [hgd, demoteOther_pk, demoteOther_primary_same_contract f h1 hp1 hc1]
  split at hg
  · rw [List.mem_map] at hg
    obtain ⟨h0, h0mem, hrep⟩ := hg
    rw [List.mem_map] at h0mem
    obtain ⟨h1, h1mem, hdem⟩ := h0mem
    by_cases hb : (h0.pk == f.pk) = true
    · rw [if_pos hb] at hrep
      exact hgpk (by rw [← hrep])
    · rw [if_neg hb] at hrep
      exact hfrom h1 h1mem (by rw [← hrep, ← hdem])
  · rcases List.mem_append.mp hg with hg1 | hg2
    · rw [List.mem_map] at hg1
      obtain ⟨h1, h1mem, hdem⟩ := hg1
      exact hfrom h1 h1mem hdem.symm
    · have hgf : g = f := by simpa using hg2
      exact hgpk (by rw [hgf])

/-- Saving a file whose row does not count for the bucket can only shrink
the bucket's primary count. -/
theorem upsert_countP_le (l : List ContractFile) (f : ContractFile)
    (p : ContractFile → Bool) (hpf : p f = false) :
    (upsertByPk l f).countP p ≤ l.countP p := by
  unfold upsertByPk
  split
  · apply countP_map_le_of_imp
    intro g _ hpg
    by_cases hb : (g.pk == f.pk) = true
    · rw [if_pos hb, hpf] at hpg
      cases hpg
    · rwa [if_neg hb] at hpg
  · rw [List.countP_append]
    have h0 : List.countP p [f] = 0 := by
      simp [List.countP_cons, hpf]
    omega

theorem save_countP_le (files : List ContractFile) (f : ContractFile)
    (p : ContractFile → Bool) (hpf : p f = false)
    (hdem : ∀ g, p (demoteOther f g) = true → p g = true) :
    (ContractFile.save files f).countP p ≤ files.countP p := by
  unfold ContractFile.save
  refine Nat.le_trans (upsert_countP_le _ f p hpf) ?_
  split
  · exact countP_map_le_of_imp files (demoteOther f) p fun g _ => hdem g
  · exact Nat.le_refl _

/-- C7: provided the file table carries duplicate-free primary keys,
saving a primary file demotes every other row of the same contract, and
each `ContractFile.save` preserves the at-most-one-primary-per-contract
invariant. -/
theorem c7_primary_file_invariant
    (files : List ContractFile) (f : ContractFile)
    (hnd : (files.map fun g => g.pk).Nodup) :
    (f.is_primary = true →
      ∀ g ∈ ContractFile.save files f, g.contract = f.contract →
        g.pk ≠ f.pk → g.is_primary = false) ∧
    (∀ cid, atMostOnePrimary files cid →
      atMostOnePrimary (ContractFile.save files f) cid) := by
  constructor
  · exact save_demotes files f
  · intro cid hinv
    unfold atMostOnePrimary at hinv ⊢
    have hdem : ∀ g, ((demoteOther f g).contract == cid &&
        (demoteOther f g).is_primary) = true →
        (g.contract == cid && g.is_primary) = true := by
      intro g hp
      rw [Bool.and_eq_true] at hp ⊢
      refine ⟨?_, demoteOther_primary_le f g hp.2⟩
      rw [← demoteOther_contract f g]
      exact hp.1
    by_cases hfp : f.is_primary = true
    · by_cases hcid : f.contract = cid
      · apply countP_le_one_of_same_key _ (fun g => g.pk) _ f.pk
          (save_pks_nodup files f hnd)
        intro g hg hpg
        rw [Bool.and_eq_true, beq_iff_eq] at hpg
        by_contra hne
        have hdemoted := save_demotes files f hfp g hg
          (hpg.1.trans hcid.symm) hne
        rw [hdemoted] at hpg
        exact absurd hpg.2 (by simp)
      · refine Nat.le_trans (save_countP_le files f _ ?_ hdem) hinv
        simp [beq_eq_false_iff_ne.mpr hcid]
    · refine Nat.le_trans (save_countP_le files f _ ?_ hdem) hinv
      rw [Bool.not_eq_true] at hfp
      simp [hfp]

/-- Witness for C7: saving a new primary file (pk 2) for contract c1,
which already has primary file pk 1, keeps the one-primary invariant. -/
theorem c7_primary_file_invariant_witness :
    atMostOnePrimary
      (ContractFile.save
        [{ pk := 1, contract := "c1", original_filename := "a.pdf",
           is_primary := true }]
        { pk := 2, contract := "c1", original_filename := "b.pdf",
          is_primary := true }) "c1" :=
  (c7_primary_file_invariant
    [{ pk := 1, contract := "c1", original_filename := "a.pdf",
       is_primary := true }]
    { pk := 2, contract := "c1", original_filename := "b.pdf",
      is_primary := true }
    (by decide)).2 "c1" (by decide)

/-- A code point below the surrogate range round-trips through
`Char.ofNat`. -/
theorem char_toNat_ofNat (n : Nat) (h : n < 55296) :
    (Char.ofNat n).toNat = n := by
  unfold Char.ofNat
  rw [dif_pos (Or.inl h : Nat.isValidChar n)]
  rfl

/-- Digit characters satisfy the digit test. -/
theorem digitChar_isDigit (d : Nat) (h : d < 10) :
    isDigitChar (digitChar d) = true := by
  unfold isDigitChar digitChar
  rw [char_toNat_ofNat (48 + d) (by omega)]
  simp only [Bool.and_eq_true, decide_eq_true_eq]
  omega

/-- Every character of the rendered year-month stamp is a digit. -/
theorem ymStr_digits (y m : Nat) :
    ∀ ch ∈ (ymStr y m).data, isDigitChar ch = true := by
  intro ch hch
  have hdata : (ymStr y m).data =
      [digitChar (y / 1000 % 10), digitChar (y / 100 % 10),
       digitChar (y / 10 % 10), digitChar (y % 10),
       digitChar (m / 10 % 10), digitChar (m % 10)] := rfl
  rw [hdata] at hch
  simp only [List.mem_cons, List.not_mem_nil, or_false] at hch
  rcases hch with h | h | h | h | h | h <;> subst h <;>
    exact digitChar_isDigit _ (Nat.mod_lt _ (by omega))

/-- Uppercasing maps lowercase-hex characters into the uppercase
alphanumeric alphabet. -/
theorem pyUpperChar_upperAlnum (ch : Char) (h : isLowerHexChar ch = true) :
    isUpperAlnumChar (pyUpperChar ch) = true := by
  unfold isLowerHexChar isDigitChar at h
  simp only [Bool.or_eq_true, Bool.and_eq_true, decide_eq_true_eq] at h
  unfold pyUpperChar isUpperAlnumChar isDigitChar
  rcases h with ⟨h1, h2⟩ | ⟨h1, h2⟩
  · rw [if_neg (by omega)]
    simp only [Bool.or_eq_true, Bool.and_eq_true, decide_eq_true_eq]
    exact Or.inl ⟨h1, h2⟩
  · rw [if_pos ⟨h1, by omega⟩]
    rw [char_toNat_ofNat (ch.toNat - 32) (by omega)]
    simp only [Bool.or_eq_true, Bool.and_eq_true, decide_eq_true_eq]
    exact Or.inr ⟨by omega, by omega⟩

/-- A string assembled from the `CNT-` prefix, six digit characters, a
hyphen and eight uppercase alphanumerics satisfies the format checker. -/
theorem contractNumberFormatOk_build (s : String) (mid tail : List Char)
    (hs : s.data = 'C' :: 'N' :: 'T' :: '-' :: (mid ++ '-' :: tail))
    (hmidlen : mid.length = 6)
    (hmid : ∀ ch ∈ mid, isDigitChar ch = true)
    (htaillen : tail.length = 8)
    (htail : ∀ ch ∈ tail, isUpperAlnumChar ch = true) :
    contractNumberFormatOk s = true := by
  have h6 : (mid ++ '-' :: tail).drop 6 = '-' :: tail := by
    rw [← hmidlen]
    exact List.drop_left mid _
  have h7 : (mid ++ '-' :: tail).drop 7 = tail := by
    show (mid ++ '-' :: tail).drop (6 + 1) = tail
    rw [← List.drop_drop, h6]
    rfl
  have htake : (mid ++ '-' :: tail).take 6 = mid := by
    rw [← hmidlen]
    exact List.take_left mid _
  unfold contractNumberFormatOk
  rw [hs]
  simp only [Bool.and_eq_true]
  refine ⟨⟨⟨⟨?_, ?_⟩, ?_⟩, ?_⟩, ?_⟩
  · rw [beq_iff_eq]
    simp [List.length_append, hmidlen, htaillen]
  · rw [beq_iff_eq]
    rfl
  · have hd4 : ('C' :: 'N' :: 'T' :: '-' :: (mid ++ '-' :: tail)).drop 4 =
        mid ++ '-' :: tail := rfl
    rw [hd4, htake]
    exact List.all_eq_true.mpr hmid
  · have hd10 : ('C' :: 'N' :: 'T' :: '-' :: (mid ++ '-' :: tail)).drop 10 =
        (mid ++ '-' :: tail).drop 6 := rfl
    rw [hd10, h6, beq_iff_eq]
    rfl
  · have hd11 : ('C' :: 'N' :: 'T' :: '-' :: (mid ++ '-' :: tail)).drop 11 =
        (mid ++ '-' :: tail).drop 7 := rfl
    rw [hd11, h7]
    exact List.all_eq_true.mpr htail

/-- C6: a contract's first persist assigns the number
`CNT-<YYYYMM>-<first 8 UUID characters, uppercased>`; for a real creation
date and a hex UUID string the result matches
`CNT-<6 digits>-<8 uppercase alphanumerics>`; and once a number is
assigned, no later save or update ever changes the row again. -/
theorem c6_contract_number
    (c : Contract) (year month : Nat)
    (hnum : c.contract_number = "")
    (hy1 : 1000 ≤ year) (hy2 : year ≤ 9999)
    (hm1 : 1 ≤ month) (hm2 : month ≤ 12)
    (hlen : 8 ≤ c.cid.data.length)
    (hhex : ∀ ch ∈ c.cid.data.take 8, isLowerHexChar ch = true) :
    (Contract.save c year month).contract_number =
      "CNT-" ++ ymStr year month ++ "-" ++ pyUpper (pyTake c.cid 8) ∧
    contractNumberFormatOk
      (Contract.save c year month).contract_number = true ∧
    (∀ y2 m2, Contract.save (Contract.save c year month) y2 m2 =
      Contract.save c year month) ∧
    (∀ c2 : Contract, ∀ y2 m2, c2.contract_number ≠ "" →
      Contract.save c2 y2 m2 = c2) := by
  have hempty : (c.contract_number == "") = true := beq_iff_eq.mpr hnum
  have hsave : (Contract.save c year month).contract_number =
      "CNT-" ++ ymStr year month ++ "-" ++ pyUpper (pyTake c.cid 8) := by
    unfold Contract.save
    rw [if_pos hempty]
  have hdata : ("CNT-" ++ ymStr year month ++ "-" ++
      pyUpper (pyTake c.cid 8)).data =
      'C' :: 'N' :: 'T' :: '-' ::
        ((ymStr year month).data ++
          '-' :: (pyUpper (pyTake c.cid 8)).data) := by
    rw [String.data_append, String.data_append, String.data_append]
    have h1 : "CNT-".data = ['C', 'N', 'T', '-'] := rfl
    have h2 : "-".data = ['-'] := rfl
    rw [h1, h2]
    simp [List.append_assoc]
  have hup : (pyUpper (pyTake c.cid 8)).data =
      (c.cid.data.take 8).map pyUpperChar := rfl
  have hmidlen : (ymStr year month).data.length = 6 := rfl
  have htaillen : (pyUpper (pyTake c.cid 8)).data.length = 8 := by
    rw [hup, List.length_map, List.length_take]
    omega
  have hgen : ∀ c2 : Contract, ∀ y2 m2, c2.contract_number ≠ "" →
      Contract.save c2 y2 m2 = c2 := by
    intro c2 y2 m2 hne
    unfold Contract.save
    rw [if_neg fun hcond => hne (eq_of_beq hcond)]
  refine ⟨hsave, ?_, ?_, hgen⟩
  · rw [hsave]
    refine contractNumberFormatOk_build _ _ _ hdata hmidlen
      (ymStr_digits year month) htaillen ?_
    intro ch hch
    rw [hup, List.mem_map] at hch
    obtain ⟨ch0, hch0, hv⟩ := hch
    rw [← hv]
    exact pyUpperChar_upperAlnum ch0 (hhex ch0 hch0)
  · intro y2 m2
    apply hgen
    rw [hsave]
    intro he
    have hd : ("CNT-" ++ ymStr year month ++ "-" ++
        pyUpper (pyTake c.cid 8)).data = "".data := by rw [he]
    rw [hdata] at hd
    simp at hd

/-- Witness for C6: a concrete fresh contract with a hex id, saved in
January 2024, gets a number matching the claimed format. -/
theorem c6_contract_number_witness :
    contractNumberFormatOk
      (Contract.save
        { confContract with contract_number := "", cid := "ab12cd34" }
        2024 1).contract_number = true :=
  (c6_contract_number
    { confContract with contract_number := "", cid := "ab12cd34" }
    2024 1 rfl (by omega) (by omega) (by omega) (by omega) (by decide)
    (by decide)).2.1

end Contracts
